import Mathlib

/-!
Verification development for a multi-modal trip-planning engine.

The definitions below are a shallow embedding of the Python source:
  * `backend/app/models.py`            — data model (Point, Edge, WeatherData, …)
  * `backend/app/routing/cost_functions.py` — preference cost functions
  * `backend/app/routing/realtime_integration.py` — weather penalty
  * `backend/app/routing_engine.py`    — A* search and heuristic
  * `backend/app/routing/closure_avoidance.py` — closure filtering
  * `backend/app/routing/translink_enhancements.py` — delay filtering
  * `backend/app/gtfs_static.py`       — stop/route resolution
  * `backend/app/gtfs_parser.py`       — GTFS-RT decoding wrapper

Python floats are embedded as rationals (`ℚ`); the arithmetic relevant to
the proved statements is exact.  Great-circle (haversine) distance uses
real trigonometric functions and is embedded over `ℝ`.
-/

namespace Dest

/-- `TransportMode` from `models.py` (a string enum in the source). -/
inductive Mode where
  | walking | biking | scooter | car | bus | skytrain | seabus | westcoastExpress
  deriving DecidableEq, Repr

/-- The enum's string value, used as the comparison key (Python compares the
string values of the `str`-enum when ordering queue tuples). -/
def Mode.str : Mode → String
  | .walking => "walking"
  | .biking => "biking"
  | .scooter => "scooter"
  | .car => "car"
  | .bus => "bus"
  | .skytrain => "skytrain"
  | .seabus => "seabus"
  | .westcoastExpress => "westcoast_express"

/-- `WeatherCondition` from `models.py`. -/
inductive Wcond where
  | clear | rain | snow | fog | wind | extreme
  deriving DecidableEq, Repr

/-- `WeatherData` from `models.py` (the timestamp field is omitted: it is
never read by the routing code). -/
structure WeatherData where
  condition : Wcond
  temperature : ℚ
  humidity : ℚ
  wind_speed : ℚ
  precipitation : ℚ
  visibility : ℚ
  deriving DecidableEq, Repr

/-- `Point` from `models.py`. -/
structure Point where
  lat : ℚ
  lng : ℚ
  deriving DecidableEq, Repr

/-- `Node` from `models.py` (fields read by the routing engine). -/
structure Node where
  id : String
  point : Point
  name : Option String := none
  elevation : Option ℚ := none
  deriving DecidableEq, Repr

/-- `Edge` from `models.py`: graph edge with static flags and the dynamic
penalty fields mutated by real-time fusion. -/
structure Edge where
  id : String
  from_node : String
  to_node : String
  distance : ℚ
  allowed_modes : List Mode
  current_traffic_speed : Option ℚ := none
  weather_penalty : ℚ := 1
  event_penalty : ℚ := 1
  energy_cost : List (Mode × ℚ) := []
  is_bike_lane : Bool := false
  is_sidewalk : Bool := true
  deriving DecidableEq, Repr

/-- Dictionary lookup with a default, mirroring Python's `dict.get(k, d)`. -/
def dictGet {α β : Type} [DecidableEq α] (l : List (α × β)) (k : α) (d : β) : β :=
  match l.find? (fun p => p.1 = k) with
  | some p => p.2
  | none => d

/-- `MODE_SPEEDS` from `cost_functions.py` (km/h). -/
def MODE_SPEEDS : Mode → ℚ
  | .walking => 5
  | .biking => 15
  | .scooter => 20
  | .car => 50
  | .bus => 25
  | .skytrain => 40
  | .seabus => 15
  | .westcoastExpress => 60

/-- `MODE_SWITCH_COSTS` from `cost_functions.py` (seconds), as the lookup
`MODE_SWITCH_COSTS.get((previous_mode, mode), 0)` used by every cost
function.  Pairs absent from the table cost 0. -/
def modeSwitchCost : Mode → Mode → ℚ
  | .walking, .biking => 60
  | .walking, .scooter => 120
  | .walking, .car => 300
  | .walking, .bus => 180
  | .biking, .walking => 30
  | .biking, .scooter => 90
  | .biking, .car => 240
  | .biking, .bus => 120
  | .scooter, .walking => 60
  | .scooter, .biking => 60
  | .scooter, .car => 180
  | .scooter, .bus => 90
  | .car, .walking => 120
  | .car, .biking => 180
  | .car, .scooter => 150
  | .car, .bus => 300
  | .bus, .walking => 60
  | .bus, .biking => 90
  | .bus, .scooter => 90
  | .bus, .car => 240
  | _, _ => 0

/-- The `if previous_mode and previous_mode != mode` switch term shared by
all six cost functions. -/
def switchTerm (previous_mode : Option Mode) (mode : Mode) : ℚ :=
  match previous_mode with
  | some p => if p ≠ mode then modeSwitchCost p mode else 0
  | none => 0

/-- `fastest_cost_function` from `cost_functions.py`. -/
def fastest_cost_function (edge : Edge) (mode : Mode) (previous_mode : Option Mode) : ℚ :=
  let base_time := edge.distance / (MODE_SPEEDS mode * 1000 / 3600)
  let effective_time := base_time * edge.weather_penalty * edge.event_penalty
  effective_time + switchTerm previous_mode mode

/-- `safest_cost_function` from `cost_functions.py`. -/
def safest_cost_function (edge : Edge) (mode : Mode) (previous_mode : Option Mode) : ℚ :=
  let base_time := edge.distance / (MODE_SPEEDS mode * 1000 / 3600)
  let safety_penalty : ℚ :=
    if mode = .car ∧ ¬edge.is_bike_lane then 12/10
    else if (mode = .biking ∨ mode = .scooter) ∧ ¬edge.is_bike_lane then 15/10
    else 1
  let effective_time := base_time * edge.weather_penalty * edge.event_penalty * safety_penalty
  effective_time + switchTerm previous_mode mode

/-- The `energy_weights` dict in `energy_efficient_cost_function`
(`.get(mode, 0.5)`). -/
def energyWeight : Mode → ℚ
  | .walking => 1/10
  | .biking => 2/10
  | .scooter => 3/10
  | .bus => 4/10
  | .skytrain => 4/10
  | .car => 1
  | _ => 5/10

/-- `energy_efficient_cost_function` from `cost_functions.py`. -/
def energy_efficient_cost_function (edge : Edge) (mode : Mode) (previous_mode : Option Mode) : ℚ :=
  let base_time := edge.distance / (MODE_SPEEDS mode * 1000 / 3600)
  let energy_cost := edge.distance * energyWeight mode
  let effective_time := base_time + energy_cost
  effective_time + switchTerm previous_mode mode

/-- The `scenic_bonus` dict in `scenic_cost_function` (`.get(mode, 0)`). -/
def scenicBonus : Mode → ℚ
  | .walking => -2/10
  | .biking => -1/10
  | .scooter => 0
  | .bus => 0
  | .car => 1/10
  | _ => 0

/-- `scenic_cost_function` from `cost_functions.py`. -/
def scenic_cost_function (edge : Edge) (mode : Mode) (previous_mode : Option Mode) : ℚ :=
  let base_time := edge.distance / (MODE_SPEEDS mode * 1000 / 3600)
  let effective_time := base_time * (1 + scenicBonus mode)
  effective_time + switchTerm previous_mode mode

/-- The `health_bonus` dict in `healthy_cost_function` (`.get(mode, 0)`). -/
def healthBonus : Mode → ℚ
  | .walking => -3/10
  | .biking => -2/10
  | .scooter => -1/10
  | .bus => 0
  | .car => 2/10
  | _ => 0

/-- `healthy_cost_function` from `cost_functions.py`. -/
def healthy_cost_function (edge : Edge) (mode : Mode) (previous_mode : Option Mode) : ℚ :=
  let base_time := edge.distance / (MODE_SPEEDS mode * 1000 / 3600)
  let effective_time := base_time * (1 + healthBonus mode)
  effective_time + switchTerm previous_mode mode

/-- The `cost_weights` dict in `cheapest_cost_function` (`.get(mode, 0.5)`). -/
def costWeight : Mode → ℚ
  | .walking => 0
  | .biking => 1/10
  | .scooter => 5/10
  | .bus => 3/10
  | .skytrain => 4/10
  | .car => 1
  | _ => 5/10

/-- `cheapest_cost_function` from `cost_functions.py`. -/
def cheapest_cost_function (edge : Edge) (mode : Mode) (previous_mode : Option Mode) : ℚ :=
  let base_time := edge.distance / (MODE_SPEEDS mode * 1000 / 3600)
  let cost := base_time + (edge.distance / 1000) * costWeight mode
  cost + switchTerm previous_mode mode

/-- `calculate_weather_penalty` from `realtime_integration.py` (the identical
method `RoutingEngine._calculate_weather_penalty` is in `routing_engine.py`). -/
def calculate_weather_penalty (weather : WeatherData) : ℚ :=
  let base_penalty : ℚ :=
    if weather.condition = .rain then 13/10
    else if weather.condition = .snow then 15/10
    else if weather.condition = .fog then 12/10
    else if weather.condition = .extreme then 2
    else 1
  if weather.wind_speed > 30 then base_penalty * (12/10) else base_penalty

/-! ## A* search (`RoutingEngine._astar_search`, `routing_engine.py`)

The Python routine drives a `heapq` priority queue of tuples
`(f_score, node, path, current_mode)` against a node-keyed `closed_set`
and node-keyed `g_score` dictionary.  The embedding below reproduces that
loop with explicit state and a fuel bound (the Python `while` has no
internal bound).  A ghost trace records each popped queue entry together
with whether it was expanded or discarded by the `closed_set` test; the
trace does not influence the computation.  `heapq.heappop` returns a
minimal tuple under Python's lexicographic tuple order; `popMin` removes
the first minimal entry, which agrees with `heapq` whenever the minimal
key is unique (true of every concrete run below). -/

/-- One path element `(from_node, to_node, mode)`. -/
abbrev AStep := String × String × Mode

/-- A priority-queue entry `(f_score, node, path, current_mode)`. -/
structure QEntry where
  f : ℚ
  node : String
  path : List AStep
  mode : Option Mode
  deriving DecidableEq, Repr

/-- Ghost trace entry: a popped queue state and whether it was expanded
(`true`) or discarded because its node was already in the closed set
(`false`). -/
structure TraceE where
  node : String
  mode : Option Mode
  expanded : Bool
  deriving DecidableEq, Repr

/-- Three-way comparison on rationals. -/
def cmpQ (a b : ℚ) : Ordering :=
  if a < b then .lt else if b < a then .gt else .eq

/-- Lexicographic comparison of path steps, mirroring Python's tuple
comparison on `(from_node, to_node, mode)` with the mode's string value. -/
def cmpStep (a b : AStep) : Ordering :=
  (compare a.1 b.1).then ((compare a.2.1 b.2.1).then (compare a.2.2.str b.2.2.str))

/-- Lexicographic comparison of step lists (Python list comparison). -/
def cmpPath : List AStep → List AStep → Ordering
  | [], [] => .eq
  | [], _ :: _ => .lt
  | _ :: _, [] => .gt
  | a :: as', b :: bs => (cmpStep a b).then (cmpPath as' bs)

/-- Comparison of the optional mode component.  Python would raise when
comparing `None` with a mode string; the case is unreachable because the
earlier tuple components always discriminate first, so any total choice is
faithful — `none` is placed first. -/
def cmpOptMode : Option Mode → Option Mode → Ordering
  | none, none => .eq
  | none, some _ => .lt
  | some _, none => .gt
  | some a, some b => compare a.str b.str

/-- Full lexicographic order on queue entries, as `heapq` compares the
Python tuples. -/
def cmpEntry (a b : QEntry) : Ordering :=
  (cmpQ a.f b.f).then ((compare a.node b.node).then
    ((cmpPath a.path b.path).then (cmpOptMode a.mode b.mode)))

/-- Remove the first minimal entry (see the note on `heapq` above). -/
def popMinAux (best : QEntry) (acc : List QEntry) : List QEntry → QEntry × List QEntry
  | [] => (best, acc.reverse)
  | x :: xs =>
    if cmpEntry x best = .lt then popMinAux x (best :: acc) xs
    else popMinAux best (x :: acc) xs

/-- Pop the minimal entry of the open set, `none` when empty. -/
def popMin : List QEntry → Option (QEntry × List QEntry)
  | [] => none
  | x :: xs => some (popMinAux x [] xs)

/-- `g_score.get(node, float('inf'))`: `none` stands for `inf`. -/
def gLookup (g : List (String × ℚ)) (n : String) : Option ℚ :=
  match g.find? (fun p => p.1 = n) with
  | some p => some p.2
  | none => none

/-- `g_score[node] = v`. -/
def gInsert (g : List (String × ℚ)) (n : String) (v : ℚ) : List (String × ℚ) :=
  (n, v) :: g

/-- Strict comparison in the extended rationals (`none` = `inf`):
`inf < x` and `inf < inf` are false, `x < inf` is true. -/
def optLt : Option ℚ → Option ℚ → Bool
  | some a, some b => a < b
  | some _, none => true
  | none, _ => false

/-- The innermost loop body: try each mode of one edge
(`for mode in edge.allowed_modes: if mode not in allowed_modes: continue …`),
threading `g_score` and collecting pushed entries. -/
def tryModes (cost : Edge → Mode → Option Mode → ℚ) (h : String → String → ℚ)
    (allowedModes : List Mode) (goal current neighbor : String)
    (curMode : Option Mode) (path : List AStep) (edge : Edge) :
    List Mode → List (String × ℚ) → List QEntry → List (String × ℚ) × List QEntry
  | [], g, pushes => (g, pushes)
  | m :: ms, g, pushes =>
    if m ∈ allowedModes then
      let tentative : Option ℚ := (gLookup g current).map (· + cost edge m curMode)
      if optLt tentative (gLookup g neighbor) then
        match tentative with
        | some t =>
          let fScore := t + h neighbor goal
          let entry : QEntry := ⟨fScore, neighbor, path ++ [(current, neighbor, m)], some m⟩
          tryModes cost h allowedModes goal current neighbor curMode path edge ms
            (gInsert g neighbor t) (pushes ++ [entry])
        | none =>  -- unreachable: `optLt none _ = false`
          tryModes cost h allowedModes goal current neighbor curMode path edge ms g pushes
      else
        tryModes cost h allowedModes goal current neighbor curMode path edge ms g pushes
    else
      tryModes cost h allowedModes goal current neighbor curMode path edge ms g pushes

/-- Middle loop: all parallel edges to one neighbor
(`for edge_key, edge_attrs in edge_data.items(): edge = self.edges.get(…)`);
a failed edge lookup is skipped, then the
`any(mode in edge.allowed_modes for mode in allowed_modes)` guard. -/
def tryEdges (edges : String → Option Edge) (cost : Edge → Mode → Option Mode → ℚ)
    (h : String → String → ℚ) (allowedModes : List Mode)
    (goal current neighbor : String) (curMode : Option Mode) (path : List AStep) :
    List String → List (String × ℚ) → List QEntry → List (String × ℚ) × List QEntry
  | [], g, pushes => (g, pushes)
  | eid :: eids, g, pushes =>
    match edges eid with
    | none => tryEdges edges cost h allowedModes goal current neighbor curMode path eids g pushes
    | some edge =>
      if allowedModes.any (fun m => m ∈ edge.allowed_modes) then
        let (g', pushes') := tryModes cost h allowedModes goal current neighbor curMode path edge
          edge.allowed_modes g pushes
        tryEdges edges cost h allowedModes goal current neighbor curMode path eids g' pushes'
      else
        tryEdges edges cost h allowedModes goal current neighbor curMode path eids g pushes

/-- Outer neighbor loop (`for neighbor, edge_data in graph[current].items()`),
with the `if neighbor in closed_set: continue` guard. -/
def expandNode (edges : String → Option Edge) (cost : Edge → Mode → Option Mode → ℚ)
    (h : String → String → ℚ) (allowedModes : List Mode)
    (goal current : String) (curMode : Option Mode) (path : List AStep)
    (closed : List String) :
    List (String × List String) → List (String × ℚ) → List QEntry →
    List (String × ℚ) × List QEntry
  | [], g, pushes => (g, pushes)
  | (neighbor, eids) :: rest, g, pushes =>
    if neighbor ∈ closed then
      expandNode edges cost h allowedModes goal current curMode path closed rest g pushes
    else
      let (g', pushes') := tryEdges edges cost h allowedModes goal current neighbor curMode path
        eids g pushes
      expandNode edges cost h allowedModes goal current curMode path closed rest g' pushes'

/-- The A* main loop with fuel.  Returns the found path (or `none`) together
with the ghost pop trace of the run. -/
def astarLoop (graph : String → List (String × List String)) (edges : String → Option Edge)
    (cost : Edge → Mode → Option Mode → ℚ) (h : String → String → ℚ)
    (allowedModes : List Mode) (goal : String) :
    Nat → List QEntry → List (String × ℚ) → List String →
    Option (List AStep) × List TraceE
  | 0, _, _, _ => (none, [])
  | fuel + 1, openSet, g, closed =>
    match popMin openSet with
    | none => (none, [])
    | some (e, rest) =>
      if e.node ∈ closed then
        let r := astarLoop graph edges cost h allowedModes goal fuel rest g closed
        (r.1, ⟨e.node, e.mode, false⟩ :: r.2)
      else if e.node = goal then (some e.path, [⟨e.node, e.mode, true⟩])
      else
        let closed' := e.node :: closed
        let gp := expandNode edges cost h allowedModes goal e.node e.mode e.path
          closed' (graph e.node) g []
        let r := astarLoop graph edges cost h allowedModes goal fuel (rest ++ gp.2) gp.1 closed'
        (r.1, ⟨e.node, e.mode, true⟩ :: r.2)

/-- `RoutingEngine._astar_search`: initial open set `[(0, start, [], None)]`,
`g_score = {start: 0}`, empty closed set.  (The Python `f_score` dictionary
is written and immediately read back at each push, and never read
elsewhere; the pushed entry carries the value.) -/
def astar (graph : String → List (String × List String)) (edges : String → Option Edge)
    (cost : Edge → Mode → Option Mode → ℚ) (h : String → String → ℚ)
    (allowedModes : List Mode) (start goal : String) (fuel : Nat) :
    Option (List AStep) × List TraceE :=
  astarLoop graph edges cost h allowedModes goal fuel
    [⟨0, start, [], none⟩] [(start, 0)] []

/-- Checks that the trace's expand/discard decision is keyed by node alone:
an entry is expanded exactly when its node is not among the nodes of
earlier expanded entries (`seen` accumulates the closed set). -/
def suppressionByNode (seen : List String) : List TraceE → Bool
  | [] => true
  | e :: rest =>
    (e.expanded == !(seen.contains e.node)) &&
    suppressionByNode (if e.expanded then e.node :: seen else seen) rest

/-! ### Concrete A* instances -/

/-- Zero heuristic: the value `_euclidean_heuristic` takes when every node
of the graph carries the same coordinates (the haversine distance of a
point to itself is 0). -/
def hZero : String → String → ℚ := fun _ _ => 0

/-- Two-hop graph: `s → n` (walking or car), `n → t` (walking only). -/
def graphC1 : String → List (String × List String) := fun n =>
  if n = "s" then [("n", ["e1"])]
  else if n = "n" then [("t", ["e2"])]
  else []

/-- Edge map of `graphC1`. -/
def edgesC1 : String → Option Edge := fun eid =>
  if eid = "e1" then
    some { id := "e1", from_node := "s", to_node := "n", distance := 1000,
           allowed_modes := [.walking, .car] }
  else if eid = "e2" then
    some { id := "e2", from_node := "n", to_node := "t", distance := 1000,
           allowed_modes := [.walking] }
  else none

/-- `true` iff some expanded pop is later followed by a discarded pop of
the same node with a different entry mode — i.e. an arrival with a
distinct entry mode was suppressed by the node-keyed closed set. -/
def crossModeSuppressed : List TraceE → Bool
  | [] => false
  | e :: rest =>
    (e.expanded && rest.any (fun e' =>
      !e'.expanded && e'.node == e.node && decide (e'.mode ≠ e.mode))) ||
    crossModeSuppressed rest

/-- Single-edge graph whose only edge permits only walking. -/
def graphC5 : String → List (String × List String) := fun n =>
  if n = "a" then [("b", ["w1"])] else []

/-- Edge map of `graphC5`. -/
def edgesC5 : String → Option Edge := fun eid =>
  if eid = "w1" then
    some { id := "w1", from_node := "a", to_node := "b", distance := 100,
           allowed_modes := [.walking] }
  else none

/-! ## Great-circle distance and the A* heuristic -/

/-- `math.radians`. -/
noncomputable def radiansR (x : ℚ) : ℝ := (x : ℝ) * Real.pi / 180

/-- `Point.distance_to` from `models.py` (the identical standalone
`haversine_distance` is in `closure_avoidance.py`): haversine great-circle
distance in meters, earth radius 6 371 000 m. -/
noncomputable def haversineReal (p1 p2 : Point) : ℝ :=
  let lat1 := radiansR p1.lat
  let lng1 := radiansR p1.lng
  let lat2 := radiansR p2.lat
  let lng2 := radiansR p2.lng
  let dlat := lat2 - lat1
  let dlng := lng2 - lng1
  let a := Real.sin (dlat / 2) ^ 2 + Real.cos lat1 * Real.cos lat2 * Real.sin (dlng / 2) ^ 2
  let c := 2 * Real.arcsin (Real.sqrt a)
  c * 6371000

/-- Lookup in the engine's node dictionary (`graph_builder.nodes`). -/
def nodeLookup (nodes : List (String × Node)) (n : String) : Option Node :=
  match nodes.find? (fun p => p.1 = n) with
  | some p => some p.2
  | none => none

/-- `RoutingEngine._euclidean_heuristic`: great-circle distance between the
two nodes' points divided by the walking speed in m/s; 0 when either node
is missing from the graph. -/
noncomputable def euclideanHeuristic (nodes : List (String × Node)) (n1 n2 : String) : ℝ :=
  match nodeLookup nodes n1, nodeLookup nodes n2 with
  | some a, some b =>
    haversineReal a.point b.point / ((MODE_SPEEDS .walking * 1000 / 3600 : ℚ) : ℝ)
  | _, _ => 0

/-! ### Mode-annotated paths and their cost

A path is a list of (edge, mode) traversals; its cost is the sum the A*
relaxation accumulates: each edge's cost-function value with the previous
step's mode as `previous_mode`. -/

/-- Chain validity: consecutive edges connect, each step's mode is permitted
by the edge and requested by the caller. -/
def chainOk (edges : List Edge) (allowedModes : List Mode) :
    String → List (Edge × Mode) → String → Bool
  | cur, [], goal => cur == goal
  | cur, (e, m) :: rest, goal =>
    edges.contains e && e.from_node == cur && m ∈ e.allowed_modes && m ∈ allowedModes &&
    chainOk edges allowedModes e.to_node rest goal

/-- Accumulated cost of a mode-annotated path, threading the previous mode. -/
def pathCostFrom (cost : Edge → Mode → Option Mode → ℚ) :
    Option Mode → List (Edge × Mode) → ℚ
  | _, [] => 0
  | prev, (e, m) :: rest => cost e m prev + pathCostFrom cost (some m) rest

/-- Cost of a path departing with no previous mode (as at the A* start). -/
def pathCostQ (cost : Edge → Mode → Option Mode → ℚ) (p : List (Edge × Mode)) : ℚ :=
  pathCostFrom cost none p

/-! ### Concrete instance for the heuristic claims -/

/-- Node at the equator/prime meridian. -/
def nodeS : Node := { id := "s", point := ⟨0, 0⟩ }

/-- Node at the pole, same longitude. -/
def nodeT : Node := { id := "t", point := ⟨90, 0⟩ }

/-- Node dictionary of the heuristic counterexample graph. -/
def nodesC2 : List (String × Node) := [("s", nodeS), ("t", nodeT)]

/-- The sole edge of the heuristic counterexample graph: car-only. -/
def edgeCar : Edge :=
  { id := "ec", from_node := "s", to_node := "t", distance := 1000,
    allowed_modes := [.car] }

/-! ## Closure avoidance (`closure_avoidance.py`)

Closure records arrive as loosely-typed dictionaries; the structure below
carries the alternative location encodings `extract_closure_location`
recognises (a failed `float(…)` parse in Python falls through to the next
encoding and is embedded as the field being `none`) and the six text
fields `get_closure_severity` scans.  In Python a single `location` key is
read as a dict by the extractor and as a string by the severity scan; the
embedding splits it into `location_coords` and `location_text`.

The haversine distance is real-valued; the proximity logic is embedded
over an arbitrary distance function `hav` so that it stays executable —
every statement below quantifies over `hav`, covering `haversineReal`. -/

/-- A closure/construction record. -/
structure Closure where
  geo_point_2d : Option (ℚ × ℚ) := none        -- `geo_point_2d` {lat, lon}
  latitude_longitude : Option (ℚ × ℚ) := none  -- `latitude`/`longitude` keys
  lat_lng : Option (ℚ × ℚ) := none             -- `lat`/`lng` keys
  location_coords : Option (ℚ × ℚ) := none     -- nested `location` dict
  geom_first : Option (ℚ × ℚ) := none          -- first `geom` coordinate (lng, lat)
  coordinates : Option (ℚ × ℚ) := none         -- `coordinates` array (lng, lat)
  project : String := ""
  location_text : String := ""
  street : String := ""
  closure_type : String := ""
  status : String := ""
  description : String := ""
  deriving DecidableEq, Repr

/-- `extract_closure_location`: the first recognised encoding wins; the
GeoJSON-style encodings store (lng, lat) and are swapped. -/
def extract_closure_location (c : Closure) : Option Point :=
  match c.geo_point_2d with
  | some (la, lo) => some ⟨la, lo⟩
  | none =>
  match c.latitude_longitude with
  | some (la, lo) => some ⟨la, lo⟩
  | none =>
  match c.lat_lng with
  | some (la, lo) => some ⟨la, lo⟩
  | none =>
  match c.location_coords with
  | some (la, lo) => some ⟨la, lo⟩
  | none =>
  match c.geom_first with
  | some (lo, la) => some ⟨la, lo⟩
  | none =>
  match c.coordinates with
  | some (lo, la) => some ⟨la, lo⟩
  | none => none

/-- `prefix` test on character lists (helper for substring search). -/
def leadMatch : List Char → List Char → Bool
  | [], _ => true
  | _ :: _, [] => false
  | a :: as', b :: bs => a == b && leadMatch as' bs

/-- Substring search on character lists. -/
def subMatchL (n : List Char) : List Char → Bool
  | [] => leadMatch n []
  | b :: bs => leadMatch n (b :: bs) || subMatchL n bs

/-- Python's `needle in haystack` on strings. -/
def subMatch (needle hay : String) : Bool := subMatchL needle.data hay.data

/-- Keywords marking a major closure (`get_closure_severity`). -/
def majorKeywords : List String :=
  ["full closure", "complete closure", "road closed", "bridge closed",
   "major", "full", "closed", "blocked", "no access"]

/-- Keywords marking a minor closure (`get_closure_severity`). -/
def minorKeywords : List String :=
  ["partial", "lane closure", "shoulder", "minor", "construction",
   "lane", "sidewalk", "shoulder work"]

/-- `get_closure_severity`: keyword scan over the lower-cased text fields,
defaulting to `"minor"`. -/
def get_closure_severity (c : Closure) : String :=
  let all_text := String.intercalate " "
    [c.project.toLower, c.location_text.toLower, c.street.toLower,
     c.closure_type.toLower, c.status.toLower, c.description.toLower]
  if majorKeywords.any (fun k => subMatch k all_text) then "major"
  else if minorKeywords.any (fun k => subMatch k all_text) then "minor"
  else "minor"

/-- `CLOSURE_PROXIMITY_THRESHOLD` (meters). -/
def CLOSURE_PROXIMITY_THRESHOLD : ℚ := 50

/-- Transit metadata of a route step (the `transit_details` dict); absent
keys are `none`, read back with the Python defaults. -/
structure TransitDetails where
  line : String := ""
  short_name : Option String := none
  delay_minutes : Option ℤ := none
  deriving DecidableEq, Repr

/-- `RouteStep` from `models.py` (fields read by the filtering code). -/
structure RouteStep where
  mode : Mode
  distance : ℚ
  estimated_time : ℤ
  effort_level : String := "moderate"
  instructions : String := ""
  start_point : Point
  end_point : Point
  transit_details : Option TransitDetails := none
  sustainability_points : ℤ := 0
  deriving DecidableEq, Repr

/-- `Route` from `models.py` (fields read by the filtering code). -/
structure Route where
  id : String
  steps : List RouteStep
  total_distance : ℚ := 0
  total_time : ℤ := 0
  deriving DecidableEq, Repr

/-- The midpoint computed inside `step_passes_near_closure`. -/
def stepMidpoint (s : RouteStep) : Point :=
  ⟨(s.start_point.lat + s.end_point.lat) / 2, (s.start_point.lng + s.end_point.lng) / 2⟩

/-- `step_passes_near_closure`: the step's start, end or midpoint lies
strictly within `threshold` of the closure's resolved location. -/
def step_passes_near_closure (hav : Point → Point → ℚ) (step : RouteStep) (closure : Closure)
    (threshold : ℚ) : Bool :=
  match extract_closure_location closure with
  | none => false
  | some cp =>
    let start_distance := hav step.start_point cp
    let end_distance := hav step.end_point cp
    let midpoint_distance := hav (stepMidpoint step) cp
    decide (start_distance < threshold) || decide (end_distance < threshold) ||
    decide (midpoint_distance < threshold)

/-- The closure loop of `route_passes_through_closures`: skip closures
rejected by the `'major'` severity filter, record a closure once when some
step passes near it (the loop `break`s after the first matching step). -/
def routeClosuresAcc (hav : Point → Point → ℚ) (route : Route)
    (severity_filter : Option String) : List Closure → List Closure
  | [] => []
  | closure :: rest =>
    if severity_filter = some "major" ∧ get_closure_severity closure ≠ "major" then
      routeClosuresAcc hav route severity_filter rest
    else if route.steps.any
        (fun s => step_passes_near_closure hav s closure CLOSURE_PROXIMITY_THRESHOLD) then
      closure :: routeClosuresAcc hav route severity_filter rest
    else routeClosuresAcc hav route severity_filter rest

/-- `route_passes_through_closures`: collect the closures some step passes
near, honouring the `'major'` severity filter. -/
def route_passes_through_closures (hav : Point → Point → ℚ) (route : Route)
    (closures : List Closure) (severity_filter : Option String) : Bool × List Closure :=
  let route_closures := routeClosuresAcc hav route severity_filter closures
  (!route_closures.isEmpty, route_closures)

/-- The route loop of `filter_routes_with_closures`. -/
def filterClosuresGo (hav : Point → Point → ℚ) (all_closures : List Closure)
    (severity_filter : Option String) :
    List Route → List Route × List Route × List (String × List Closure)
  | [] => ([], [], [])
  | route :: rest =>
    let pr := route_passes_through_closures hav route all_closures severity_filter
    let r := filterClosuresGo hav all_closures severity_filter rest
    if pr.1 then (r.1, route :: r.2.1, (route.id, pr.2) :: r.2.2)
    else (route :: r.1, r.2.1, r.2.2)

/-- `filter_routes_with_closures`: split routes into (valid, filtered) with
the per-route closure lists; construction records are appended to the
closure list and the `'major'` severity filter is used exactly when
`filter_major_only`. -/
def filter_routes_with_closures (hav : Point → Point → ℚ) (routes : List Route)
    (closures construction : List Closure) (filter_major_only : Bool) :
    List Route × List Route × List (String × List Closure) :=
  filterClosuresGo hav (closures ++ construction)
    (if filter_major_only then some "major" else none) routes

/-! ## TransLink delay filtering (`translink_enhancements.py`) -/

/-- `get_route_max_delay`: running maximum of `delay_minutes` over the
transit steps, starting from 0. -/
def get_route_max_delay (route : Route) : ℤ :=
  route.steps.foldl (fun acc s =>
    match s.transit_details with
    | some td => max acc (td.delay_minutes.getD 0)
    | none => acc) 0

/-- `get_route_total_delay`. -/
def get_route_total_delay (route : Route) : ℤ :=
  route.steps.foldl (fun acc s =>
    match s.transit_details with
    | some td => acc + td.delay_minutes.getD 0
    | none => acc) 0

/-- The sort key `delay_score` of `sort_routes_by_delay`, compared as
Python compares `(max_delay, total_delay)` tuples. -/
def delayKeyLe (a b : Route) : Prop :=
  get_route_max_delay a < get_route_max_delay b ∨
  (get_route_max_delay a = get_route_max_delay b ∧
   get_route_total_delay a ≤ get_route_total_delay b)

instance : DecidableRel delayKeyLe := fun _ _ =>
  inferInstanceAs (Decidable (_ ∨ _))

/-- `sort_routes_by_delay` (`prefer_on_time` is accepted and ignored by the
source, which always sorts ascending by `(max_delay, total_delay)`).
Python's `sorted` is a stable sort; the statements proved about it below
are permutation-invariant, so an insertion sort carries them. -/
def sort_routes_by_delay (routes : List Route) : List Route :=
  routes.insertionSort delayKeyLe

/-- `filter_routes_by_delay_threshold`: split into (valid, filtered) by
`max_delay > max_delay_minutes`. -/
def filter_routes_by_delay_threshold (routes : List Route) (max_delay_minutes : ℤ) :
    List Route × List Route :=
  match routes with
  | [] => ([], [])
  | r :: rs =>
    let p := filter_routes_by_delay_threshold rs max_delay_minutes
    if get_route_max_delay r > max_delay_minutes then (p.1, r :: p.2)
    else (r :: p.1, p.2)

/-- The set of transit route short names of a route
(Python builds a `set`; a deduplicating list has the same membership). -/
def route_transit_names (route : Route) : List String :=
  route.steps.foldl (fun acc s =>
    match s.transit_details with
    | some td =>
      let n := td.short_name.getD ""
      if n ≠ "" ∧ n ∉ acc then acc ++ [n] else acc
    | none => acc) []

/-- `find_alternative_transit_routes`: candidates from the already-computed
route set that avoid the delayed route's transit short names and stay
below the threshold, sorted by delay, at most 3. -/
def find_alternative_transit_routes (delayed_route : Route) (all_routes : List Route)
    (delay_threshold : ℤ) : List Route :=
  let max_delay := get_route_max_delay delayed_route
  if max_delay < delay_threshold then []
  else
    let delayed_transit_routes := route_transit_names delayed_route
    let alternatives := all_routes.filter (fun route =>
      route.id ≠ delayed_route.id ∧
      (let names := route_transit_names route
       ¬names.isEmpty ∧ (∀ n ∈ names, n ∉ delayed_transit_routes) ∧
       get_route_max_delay route < delay_threshold))
    (sort_routes_by_delay alternatives).take 3

/-! ## GTFS static stop resolution (`gtfs_static.py`) -/

/-- `GTFSStop`. -/
structure GTFSStop where
  stop_id : String
  stop_name : String
  stop_lat : ℚ := 0
  stop_lng : ℚ := 0
  stop_code : Option String := none
  location_type : ℤ := 0
  parent_station : Option String := none
  deriving DecidableEq, Repr

/-- `self.route_to_stops.get(route_id, [])`. -/
def routeStopsLookup (route_to_stops : List (String × List String)) (rid : String) :
    List String :=
  dictGet route_to_stops rid []

/-- The station-preference narrowing inside `_select_best_stop`: keep the
station-level records (`location_type == 1`) when any exist. -/
def stationNarrow (stops : List GTFSStop) : List GTFSStop :=
  let station_stops := stops.filter (fun s => s.location_type = 1)
  if station_stops.isEmpty then stops else station_stops

/-- `GTFSStaticParser._select_best_stop`: single hit returned directly;
otherwise station-preference narrowing, then route-set intersection, then
first-candidate fallback.  (`route_id` is a Python optional string whose
truthiness the `Option` models.) -/
def select_best_stop (route_to_stops : List (String × List String)) (stops : List GTFSStop)
    (route_id : Option String) (prefer_station : Bool) : Option String :=
  match stops with
  | [] => none
  | [s] => some s.stop_id
  | _ :: _ :: _ =>
    let stops1 := if prefer_station then stationNarrow stops else stops
    let viaRoute : Option String :=
      match route_id with
      | some rid =>
        if route_to_stops.isEmpty then none
        else
          let route_stop_ids := routeStopsLookup route_to_stops rid
          if route_stop_ids.isEmpty then none
          else
            match stops1.filter (fun s => route_stop_ids.contains s.stop_id) with
            | m :: _ => some m.stop_id
            | [] => none
      | none => none
    match viaRoute with
    | some sid => some sid
    | none => stops1.head?.map (·.stop_id)

/-! ## GTFS-RT trip-update decoding (`gtfs_parser.py`)

The Protocol-Buffer decode itself is performed by the external
`gtfs_realtime_pb2` library; the wrapper is embedded over an arbitrary
decoder `decode` returning `Except` (a raised exception is `.error`), and
`parse_trip_updates` catches every decode failure and returns `[]`. -/

/-- A decoded `arrival`/`departure` event (`StopTimeEvent`). -/
structure StopTimeEventMsg where
  delay : Option ℤ := none
  time : Option ℤ := none
  uncertainty : Option ℤ := none
  deriving DecidableEq, Repr

/-- A decoded `StopTimeUpdate`. -/
structure StopTimeUpdateMsg where
  stop_sequence : Option ℤ := none
  stop_id : String := ""
  arrival : Option StopTimeEventMsg := none
  departure : Option StopTimeEventMsg := none
  schedule_relationship : Option ℤ := none
  deriving DecidableEq, Repr

/-- A decoded `TripDescriptor`. -/
structure TripDescMsg where
  trip_id : String := ""
  route_id : String := ""
  direction_id : Option ℤ := none
  start_time : Option String := none
  start_date : Option String := none
  schedule_relationship : ℤ := 0
  deriving DecidableEq, Repr

/-- A decoded `TripUpdate`. -/
structure TripUpdateMsg where
  trip : TripDescMsg := {}
  stop_time_update : List StopTimeUpdateMsg := []
  deriving DecidableEq, Repr

/-- A decoded `FeedEntity`; only the `trip_update` payload matters here. -/
structure FeedEntityMsg where
  id : String := ""
  trip_update : Option TripUpdateMsg := none
  deriving DecidableEq, Repr

/-- A decoded `FeedMessage`. -/
structure FeedMessage where
  entity : List FeedEntityMsg := []
  deriving DecidableEq, Repr

/-- The arrival/departure record built by `parse_trip_updates`
(`delay` defaults to 0 when the field is absent). -/
structure ArrivalRec where
  delay : ℤ := 0
  time : Option ℤ := none
  uncertainty : Option ℤ := none
  deriving DecidableEq, Repr

/-- The per-stop record built by `parse_trip_updates`. -/
structure StopUpdateRec where
  stop_sequence : Option ℤ := none
  stop_id : String := ""
  arrival : Option ArrivalRec := none
  departure : Option ArrivalRec := none
  schedule_relationship : Option ℤ := none
  deriving DecidableEq, Repr

/-- The per-trip record built by `parse_trip_updates`. -/
structure TripInfoRec where
  trip_id : String := ""
  route_id : String := ""
  direction_id : Option ℤ := none
  start_time : Option String := none
  start_date : Option String := none
  schedule_relationship : ℤ := 0
  stop_time_updates : List StopUpdateRec := []
  deriving DecidableEq, Repr

/-- Conversion of one decoded event. -/
def toArrivalRec (e : StopTimeEventMsg) : ArrivalRec :=
  { delay := e.delay.getD 0, time := e.time, uncertainty := e.uncertainty }

/-- The extraction loop body of `parse_trip_updates` over a decoded feed. -/
def extractTripUpdates (feed : FeedMessage) : List TripInfoRec :=
  feed.entity.filterMap (fun ent =>
    ent.trip_update.map (fun tu =>
      { trip_id := tu.trip.trip_id
        route_id := tu.trip.route_id
        direction_id := tu.trip.direction_id
        start_time := tu.trip.start_time
        start_date := tu.trip.start_date
        schedule_relationship := tu.trip.schedule_relationship
        stop_time_updates := tu.stop_time_update.map (fun su =>
          { stop_sequence := su.stop_sequence
            stop_id := su.stop_id
            arrival := su.arrival.map toArrivalRec
            departure := su.departure.map toArrivalRec
            schedule_relationship := su.schedule_relationship }) }))

/-- `GTFSRTParser.parse_trip_updates`: any decode failure (the Python
`except Exception`) yields the empty list; a total function models
"never raises to the caller". -/
def parse_trip_updates (decode : List UInt8 → Except String FeedMessage)
    (feed_data : List UInt8) : List TripInfoRec :=
  match decode feed_data with
  | .error _ => []
  | .ok feed => extractTripUpdates feed

/-- `RoutePreference` from `models.py`. -/
inductive RoutePreference where
  | fastest | safest | energy_efficient | scenic | healthy | cheapest
  deriving DecidableEq, Repr

/-- `get_cost_function` from `cost_functions.py` (the dict dispatch; its
`.get(_, fastest)` default is unreachable over the enum). -/
def get_cost_function : RoutePreference → (Edge → Mode → Option Mode → ℚ)
  | .fastest => fastest_cost_function
  | .safest => safest_cost_function
  | .energy_efficient => energy_efficient_cost_function
  | .scenic => scenic_cost_function
  | .healthy => healthy_cost_function
  | .cheapest => cheapest_cost_function

/-- The spec's closed form of the weather penalty: one base factor per
condition multiplied by an extra 1.2 exactly when wind exceeds 30 km/h
(stated from the spec's words, to be compared with
`calculate_weather_penalty`). -/
def weatherPenaltySpec (w : WeatherData) : ℚ :=
  (match w.condition with
   | .rain => 13/10
   | .snow => 15/10
   | .fog => 12/10
   | .extreme => 2
   | _ => 1) *
  (if w.wind_speed > 30 then 12/10 else 1)

/-- Snow at 40 km/h wind (the spec's fusion example). -/
def wSnow40 : WeatherData :=
  { condition := .snow, temperature := 0, humidity := 0, wind_speed := 40,
    precipitation := 0, visibility := 0 }

/-! ### Concrete instances used by witnesses and counterexamples -/

/-- Both witness nodes of the heuristic bound sit at the same point. -/
def pW2 : Point := ⟨49, -123⟩

/-- Witness node a. -/
def nW2a : Node := { id := "a", point := pW2 }

/-- Witness node b. -/
def nW2b : Node := { id := "b", point := pW2 }

/-- Witness node dictionary. -/
def nodesW2 : List (String × Node) := [("a", nW2a), ("b", nW2b)]

/-- Witness edge: 100 m walking edge with neutral penalties. -/
def edgeW2 : Edge :=
  { id := "ew", from_node := "a", to_node := "b", distance := 100,
    allowed_modes := [.walking] }

/-- Walking route step far from every closure of the witness scenario. -/
def stepW4 : RouteStep :=
  { mode := .walking, distance := 10, estimated_time := 10,
    start_point := ⟨0, 0⟩, end_point := ⟨1/1000, 0⟩ }

/-- Single-step witness route for closure filtering. -/
def routeW4 : Route := { id := "rw", steps := [stepW4] }

/-- Witness closure: resolvable location and "road closed" text (major). -/
def closureW4 : Closure := { geo_point_2d := some (1, 1), description := "road closed" }

/-- Witness distance function: every distance is 100 m (> 50 m). -/
def havW4 : Point → Point → ℚ := fun _ _ => 100

/-- Transit step on route 99 with a 15-minute delay. -/
def stepBus99 : RouteStep :=
  { mode := .bus, distance := 1000, estimated_time := 600,
    start_point := ⟨0, 0⟩, end_point := ⟨0, 0⟩,
    transit_details := some { short_name := some "99", delay_minutes := some 15 } }

/-- Transit step on route 25 with no delay. -/
def stepBus25 : RouteStep :=
  { mode := .bus, distance := 1000, estimated_time := 700,
    start_point := ⟨0, 0⟩, end_point := ⟨0, 0⟩,
    transit_details := some { short_name := some "25", delay_minutes := some 0 } }

/-- The delayed witness route. -/
def routeDelayed : Route := { id := "r1", steps := [stepBus99] }

/-- The on-time witness route avoiding route 99. -/
def routeOnTime : Route := { id := "r2", steps := [stepBus25] }

/-- Station-level stop record (not served by route `"r"` below). -/
def stopA : GTFSStop :=
  { stop_id := "A", stop_name := "ubc exchange", location_type := 1 }

/-- Bay-level stop record (served by route `"r"` below). -/
def stopB : GTFSStop :=
  { stop_id := "B", stop_name := "ubc exchange @ bay 9", location_type := 0 }

/-- The two name matches of the stop-resolution scenarios. -/
def stopsC7 : List GTFSStop := [stopA, stopB]

/-- Route→stop join where route `"r"` serves only the bay `"B"`. -/
def rtsC7 : List (String × List String) := [("r", ["B"])]

/-- Route→stop join where route `"r"` serves both records. -/
def rtsW7 : List (String × List String) := [("r", ["A", "B"])]

/-- A decoder whose decode always fails (malformed feed). -/
def decodeFail : List UInt8 → Except String FeedMessage :=
  fun _ => .error "malformed feed"

/-- Witness edge for the effective-cost interface. -/
def edgeW10 : Edge :=
  { id := "e10", from_node := "a", to_node := "b", distance := 1000,
    allowed_modes := [.walking] }

/-- `Edge.get_effective_cost` from `models.py`.  Python returns
`float('inf')` for a disallowed mode; `⊤ : WithTop ℚ` embeds that value. -/
def Edge.get_effective_cost (e : Edge) (mode : Mode) (base_speed : ℚ) : WithTop ℚ :=
  if mode ∈ e.allowed_modes then
    let base_time := e.distance / (base_speed * 1000 / 3600)
    let effective_time := base_time * e.weather_penalty * e.event_penalty
    let energy_cost := dictGet e.energy_cost mode 0
    (effective_time + energy_cost : ℚ)
  else ⊤

/-! # Theorems -/

set_option maxRecDepth 100000

/-- The switch term for a present previous mode is the ordered-pair table
lookup, zero on the diagonal. -/
theorem switchTerm_some (p m : Mode) :
    switchTerm (some p) m = if p = m then 0 else modeSwitchCost p m := by
  unfold switchTerm
  by_cases h : p = m <;> simp [h]

/-- The switch term for an absent previous mode is zero. -/
theorem switchTerm_none (m : Mode) : switchTerm none m = 0 := rfl

/-- C3: For every `WeatherData` input, the weather penalty is the single
multiplicative factor 1.3 (rain), 1.5 (snow), 1.2 (fog), 2.0 (extreme),
1.0 otherwise, times a further 1.2 exactly when wind exceeds 30 km/h; in
particular snow with 40 km/h wind yields 1.5 × 1.2 = 1.8. -/
theorem C3_weather_penalty_multiplicative :
    (∀ w : WeatherData, calculate_weather_penalty w = weatherPenaltySpec w) ∧
    calculate_weather_penalty wSnow40 = 9/5 := by
  constructor
  · intro w
    unfold calculate_weather_penalty weatherPenaltySpec
    rcases w with ⟨c, t, hum, ws, prec, vis⟩
    cases c <;> by_cases hw : ws > 30 <;> simp [hw]
  · with_unfolding_all decide

/-- C8: every preference's cost function adds the fixed mode-switch penalty
keyed by the ordered pair `(previous_mode, mode)` exactly when a previous
mode is present and differs; the table is direction-asymmetric with
walking→car = 300 s and car→walking = 120 s, and a self-switch or absent
previous mode adds zero. -/
theorem C8_mode_switch_penalty :
    (∀ (pref : RoutePreference) (e : Edge) (m p : Mode),
       get_cost_function pref e m (some p) =
         get_cost_function pref e m none + (if p = m then 0 else modeSwitchCost p m)) ∧
    (∀ (pref : RoutePreference) (e : Edge) (m : Mode),
       get_cost_function pref e m (some m) = get_cost_function pref e m none) ∧
    (∀ (pref : RoutePreference) (e : Edge),
       get_cost_function pref e .car (some .walking) =
         get_cost_function pref e .car none + 300 ∧
       get_cost_function pref e .walking (some .car) =
         get_cost_function pref e .walking none + 120) ∧
    modeSwitchCost .walking .car = 300 ∧ modeSwitchCost .car .walking = 120 ∧
    modeSwitchCost .walking .car ≠ modeSwitchCost .car .walking := by
  have hmain : ∀ (pref : RoutePreference) (e : Edge) (m p : Mode),
      get_cost_function pref e m (some p) =
        get_cost_function pref e m none + (if p = m then 0 else modeSwitchCost p m) := by
    intro pref e m p
    cases pref <;>
      simp only [get_cost_function, fastest_cost_function, safest_cost_function,
        energy_efficient_cost_function, scenic_cost_function, healthy_cost_function,
        cheapest_cost_function, switchTerm_some, switchTerm_none] <;>
      ring
  refine ⟨hmain, ?_, ?_, rfl, rfl, by decide⟩
  · intro pref e m
    rw [hmain pref e m m]
    simp
  · intro pref e
    constructor
    · rw [hmain pref e .car .walking,
        if_neg (show ¬(Mode.walking = Mode.car) by decide)]
      rfl
    · rw [hmain pref e .walking .car,
        if_neg (show ¬(Mode.car = Mode.walking) by decide)]
      rfl

/-- C9: decoding the binary trip-update feed never raises to the caller
(the embedding is a total function), and every input whose decode fails
yields the empty update list. -/
theorem C9_malformed_feed_empty :
    ∀ (decode : List UInt8 → Except String FeedMessage) (feed_data : List UInt8)
      (err : String), decode feed_data = .error err →
      parse_trip_updates decode feed_data = [] := by
  intro decode feed_data err h
  unfold parse_trip_updates
  rw [h]

/-- Witness for C9 at a concrete failing decoder and input. -/
theorem C9_malformed_feed_empty_witness :
    decodeFail [0, 1, 2] = .error "malformed feed" ∧
    parse_trip_updates decodeFail [0, 1, 2] = [] :=
  ⟨rfl, C9_malformed_feed_empty decodeFail [0, 1, 2] "malformed feed" rfl⟩

/-- C10: `Edge.get_effective_cost` returns +infinity (`⊤`) exactly for a
disallowed mode, otherwise base travel time (distance over the speed in
m/s) times the weather and event penalties plus the per-mode energy cost
(0 when absent); hence a disallowed mode is never the cheaper option. -/
theorem C10_effective_cost_spec :
    ∀ (e : Edge) (m : Mode) (base_speed : ℚ), 0 < base_speed →
      (m ∉ e.allowed_modes → e.get_effective_cost m base_speed = ⊤) ∧
      (m ∈ e.allowed_modes → e.get_effective_cost m base_speed =
        ((e.distance / (base_speed * 1000 / 3600)) * e.weather_penalty * e.event_penalty
          + dictGet e.energy_cost m 0 : ℚ)) ∧
      (∀ m' : Mode, m' ∉ e.allowed_modes →
        e.get_effective_cost m base_speed ≤ e.get_effective_cost m' base_speed) := by
  intro e m base_speed _
  refine ⟨?_, ?_, ?_⟩
  · intro hnot
    simp [Edge.get_effective_cost, hnot]
  · intro hmem
    simp [Edge.get_effective_cost, hmem]
  · intro m' hnot
    have h : e.get_effective_cost m' base_speed = ⊤ := by
      simp [Edge.get_effective_cost, hnot]
    rw [h]
    exact le_top

/-- Witness for C10: a concrete edge where the disallowed mode costs `⊤`. -/
theorem C10_effective_cost_spec_witness :
    Mode.car ∉ edgeW10.allowed_modes ∧ edgeW10.get_effective_cost .car 5 = ⊤ :=
  ⟨by decide, (C10_effective_cost_spec edgeW10 .car 5 (by norm_num)).1 (by decide)⟩

/-! ### A* helper lemmas -/

/-- Under mode disjointness every edge fails the
`any(mode in edge.allowed_modes for mode in allowed_modes)` guard, so the
edge loop changes nothing. -/
theorem tryEdges_disjoint (edges : String → Option Edge)
    (cost : Edge → Mode → Option Mode → ℚ) (h : String → String → ℚ)
    (allowedModes : List Mode) (goal current neighbor : String)
    (curMode : Option Mode) (path : List AStep)
    (hdisj : ∀ eid e, edges eid = some e → ∀ m ∈ e.allowed_modes, m ∉ allowedModes) :
    ∀ (eids : List String) (g : List (String × ℚ)) (pushes : List QEntry),
      tryEdges edges cost h allowedModes goal current neighbor curMode path eids g pushes =
        (g, pushes) := by
  intro eids
  induction eids with
  | nil => intro g pushes; rfl
  | cons eid rest ih =>
    intro g pushes
    unfold tryEdges
    cases hedge : edges eid with
    | none => exact ih g pushes
    | some edge =>
      have hany : allowedModes.any (fun m => decide (m ∈ edge.allowed_modes)) = false := by
        rw [List.any_eq_false]
        intro m hm
        simp only [decide_eq_true_eq]
        intro hmem
        exact hdisj eid edge hedge m hmem hm
      simp only [hany, Bool.false_eq_true, if_false]
      exact ih g pushes

/-- Under mode disjointness expanding a node pushes nothing and leaves the
g-scores unchanged. -/
theorem expandNode_disjoint (edges : String → Option Edge)
    (cost : Edge → Mode → Option Mode → ℚ) (h : String → String → ℚ)
    (allowedModes : List Mode) (goal current : String) (curMode : Option Mode)
    (path : List AStep) (closed : List String)
    (hdisj : ∀ eid e, edges eid = some e → ∀ m ∈ e.allowed_modes, m ∉ allowedModes) :
    ∀ (adj : List (String × List String)) (g : List (String × ℚ)) (pushes : List QEntry),
      expandNode edges cost h allowedModes goal current curMode path closed adj g pushes =
        (g, pushes) := by
  intro adj
  induction adj with
  | nil => intro g pushes; rfl
  | cons p rest ih =>
    intro g pushes
    obtain ⟨neighbor, eids⟩ := p
    unfold expandNode
    by_cases hmem : neighbor ∈ closed
    · simp only [hmem, if_true]
      exact ih g pushes
    · simp only [hmem, if_false]
      rw [tryEdges_disjoint edges cost h allowedModes goal current neighbor curMode path
        hdisj eids g pushes]
      exact ih g pushes

/-- C5: when every edge's permitted-mode set is disjoint from the caller's
allowed-mode set and the goal differs from the start, A* expands only the
start state, pushes no edge traversal, and returns "no path" (`none`) —
a normal empty result. -/
theorem C5_disjoint_modes_no_path :
    ∀ (graph : String → List (String × List String)) (edges : String → Option Edge)
      (cost : Edge → Mode → Option Mode → ℚ) (h : String → String → ℚ)
      (allowedModes : List Mode) (start goal : String) (fuel : Nat),
      (∀ eid e, edges eid = some e → ∀ m ∈ e.allowed_modes, m ∉ allowedModes) →
      start ≠ goal → 2 ≤ fuel →
      astar graph edges cost h allowedModes start goal fuel =
        (none, [⟨start, none, true⟩]) := by
  intro graph edges cost h allowedModes start goal fuel hdisj hne hfuel
  obtain ⟨k, rfl⟩ : ∃ k, fuel = k + 1 + 1 := by
    rcases Nat.exists_eq_add_of_le hfuel with ⟨k, hk⟩
    exact ⟨k, by omega⟩
  unfold astar astarLoop
  simp only [popMin, popMinAux, List.reverse_nil]
  simp only [List.not_mem_nil, if_false]
  rw [if_neg hne]
  rw [expandNode_disjoint edges cost h allowedModes goal start none [] [start] hdisj
    (graph start) [(start, 0)] []]
  unfold astarLoop
  simp [popMin]

/-- Witness for C5: the walking-only single-edge graph searched with
car-only modes returns no path after expanding only the start. -/
theorem C5_disjoint_modes_no_path_witness :
    astar graphC5 edgesC5 fastest_cost_function hZero [.car] "a" "b" 2 =
      (none, [⟨"a", none, true⟩]) := by
  apply C5_disjoint_modes_no_path graphC5 edgesC5 fastest_cost_function hZero [.car] "a" "b" 2
  · intro eid e heq m hm hmem
    unfold edgesC5 at heq
    by_cases h1 : eid = "w1"
    · rw [if_pos h1] at heq
      cases heq
      simp at hm
      subst hm
      simp at hmem
    · rw [if_neg h1] at heq
      cases heq
  · decide
  · exact Nat.le_refl 2

/-! ### C1: the search state in the frontier versus the closed set -/

/-- C1 counterexample: on `graphC1` (edge `s→n` permits walking and car,
edge `n→t` walking only, modes `{walking, car}`, fastest preference) the
node `n` is reached by two distinct frontier entries (modes car and
walking), but after the car arrival is expanded the walking arrival at the
same node is popped and discarded by the node-keyed closed set — the two
arrivals are NOT kept as independently expandable states, refuting the
claim that neither expansion suppresses the other. -/
theorem C1_cross_mode_suppression_counterexample :
    (astar graphC1 edgesC1 fastest_cost_function hZero [.walking, .car] "s" "t" 10).2 =
      [⟨"s", none, true⟩, ⟨"n", some .car, true⟩, ⟨"n", some .walking, false⟩,
       ⟨"t", some .walking, true⟩] ∧
    crossModeSuppressed
      (astar graphC1 edgesC1 fastest_cost_function hZero [.walking, .car] "s" "t" 10).2 =
      true := by
  constructor
  · with_unfolding_all decide
  · with_unfolding_all decide

/-- The ghost trace of any A* run passes the node-keyed suppression check:
a popped entry is expanded iff its node is not among earlier expanded
nodes, regardless of modes. -/
theorem suppressionByNode_astarLoop (graph : String → List (String × List String))
    (edges : String → Option Edge) (cost : Edge → Mode → Option Mode → ℚ)
    (h : String → String → ℚ) (allowedModes : List Mode) (goal : String) :
    ∀ (fuel : Nat) (openSet : List QEntry) (g : List (String × ℚ)) (closed : List String),
      suppressionByNode closed
        (astarLoop graph edges cost h allowedModes goal fuel openSet g closed).2 = true := by
  intro fuel
  induction fuel with
  | zero => intro openSet g closed; rfl
  | succ k ih =>
    intro openSet g closed
    unfold astarLoop
    split
    · rfl
    · next e rest _ =>
      by_cases hmem : e.node ∈ closed
      · rw [if_pos hmem]
        have hc : closed.contains e.node = true := by
          simpa using hmem
        simp only [suppressionByNode, hc, Bool.not_true, Bool.and_eq_true, beq_iff_eq]
        exact ⟨trivial, ih _ _ _⟩
      · have hc : closed.contains e.node = false := by
          simpa using hmem
        rw [if_neg hmem]
        by_cases hgoal : e.node = goal
        · rw [if_pos hgoal]
          simp only [suppressionByNode, hc, Bool.not_false, Bool.and_eq_true, beq_iff_eq]
          exact ⟨trivial, trivial⟩
        · rw [if_neg hgoal]
          simp only [suppressionByNode, hc, Bool.not_false, Bool.and_eq_true, beq_iff_eq]
          exact ⟨trivial, ih _ _ _⟩

/-- An entry whose node is already "seen" is marked suppressed everywhere
in a trace passing the node-keyed check. -/
theorem suppressed_of_seen :
    ∀ (tr : List TraceE) (seen : List String),
      suppressionByNode seen tr = true →
      ∀ n ∈ seen, ∀ e ∈ tr, e.node = n → e.expanded = false := by
  intro tr
  induction tr with
  | nil => intro seen _ n _ e he; cases he
  | cons a rest ih =>
    intro seen hsup n hn e he hnode
    unfold suppressionByNode at hsup
    rw [Bool.and_eq_true] at hsup
    obtain ⟨h1, h2⟩ := hsup
    rcases List.mem_cons.mp he with rfl | hrest
    · have hc : seen.contains e.node = true := by
        rw [hnode]; simpa using hn
      rw [hc] at h1
      simpa using h1
    · refine ih _ h2 n ?_ e hrest hnode
      by_cases hexp : a.expanded
      · simp only [hexp, if_true]
        exact List.mem_cons_of_mem _ hn
      · simpa [hexp] using hn

/-- In a trace passing the node-keyed check, any entry following an
expanded entry with the same node is suppressed. -/
theorem pairwise_from_checker :
    ∀ (tr : List TraceE) (seen : List String),
      suppressionByNode seen tr = true →
      ∀ (pre : List TraceE) (e1 : TraceE) (mid : List TraceE) (e2 : TraceE)
        (post : List TraceE),
        tr = pre ++ e1 :: (mid ++ e2 :: post) → e1.expanded = true →
        e1.node = e2.node → e2.expanded = false := by
  intro tr
  induction tr with
  | nil =>
    intro seen _ pre e1 mid e2 post heq _ _
    cases pre <;> simp at heq
  | cons a rest ih =>
    intro seen hsup pre e1 mid e2 post heq hexp hnode
    unfold suppressionByNode at hsup
    rw [Bool.and_eq_true] at hsup
    obtain ⟨_, h2⟩ := hsup
    cases pre with
    | nil =>
      simp only [List.nil_append, List.cons.injEq] at heq
      obtain ⟨rfl, hrest⟩ := heq
      rw [hexp] at h2
      simp only [if_true] at h2
      refine suppressed_of_seen rest (a.node :: seen) h2 a.node (List.mem_cons_self _ _)
        e2 ?_ hnode.symm
      rw [hrest]
      exact List.mem_append_right _ (List.mem_cons_self _ _)
    | cons p pre' =>
      simp only [List.cons_append, List.cons.injEq] at heq
      obtain ⟨rfl, hrest⟩ := heq
      exact ih _ h2 pre' e1 mid e2 post hrest hexp hnode

/-- C1 (amended): distinct-mode arrivals at a node are distinct open-set
entries, but the expand/discard decision is keyed by node alone: in every
A* run, any popped entry that follows an expanded entry with the same node
— whatever the two entry modes — is discarded rather than expanded. -/
theorem C1_astar_suppression_is_node_keyed :
    ∀ (graph : String → List (String × List String)) (edges : String → Option Edge)
      (cost : Edge → Mode → Option Mode → ℚ) (h : String → String → ℚ)
      (allowedModes : List Mode) (start goal : String) (fuel : Nat)
      (pre : List TraceE) (e1 : TraceE) (mid : List TraceE) (e2 : TraceE)
      (post : List TraceE),
      (astar graph edges cost h allowedModes start goal fuel).2 =
        pre ++ e1 :: (mid ++ e2 :: post) →
      e1.expanded = true → e1.node = e2.node → e2.expanded = false := by
  intro graph edges cost h allowedModes start goal fuel pre e1 mid e2 post heq hexp hnode
  have hsup : suppressionByNode []
      (astar graph edges cost h allowedModes start goal fuel).2 = true := by
    unfold astar
    exact suppressionByNode_astarLoop graph edges cost h allowedModes goal fuel _ _ _
  exact pairwise_from_checker _ [] hsup pre e1 mid e2 post heq hexp hnode

/-- Witness for the amended C1 on the concrete two-hop run: the walking
arrival at `n` popped after the expanded car arrival is discarded. -/
theorem C1_astar_suppression_is_node_keyed_witness :
    (astar graphC1 edgesC1 fastest_cost_function hZero [.walking, .car] "s" "t" 10).2 =
      [⟨"s", none, true⟩] ++ (⟨"n", some .car, true⟩ : TraceE) ::
        ([] ++ (⟨"n", some .walking, false⟩ : TraceE) :: [⟨"t", some .walking, true⟩]) ∧
    (⟨"n", some .walking, false⟩ : TraceE).expanded = false := by
  refine ⟨by with_unfolding_all decide, ?_⟩
  exact C1_astar_suppression_is_node_keyed graphC1 edgesC1 fastest_cost_function hZero
    [.walking, .car] "s" "t" 10 [⟨"s", none, true⟩] ⟨"n", some .car, true⟩ []
    ⟨"n", some .walking, false⟩ [⟨"t", some .walking, true⟩]
    (by with_unfolding_all decide) rfl rfl

/-! ### C7: stop-name resolution -/

/-- C7 counterexample: the name matches are a station-level record `A` not
served by route `r` and a bay-level record `B` served by `r`; the route's
stop set contains a matching stop (`B`), yet `_select_best_stop` returns
`A`, which is not in the route's stop set — the station-preference
narrowing runs first and eliminates every route-served candidate. -/
theorem C7_station_preference_overrides_route_counterexample :
    select_best_stop rtsC7 stopsC7 (some "r") true = some "A" ∧
    ("A" ∈ routeStopsLookup rtsC7 "r") = False ∧
    ∃ s ∈ stopsC7, s.stop_id ∈ routeStopsLookup rtsC7 "r" := by
  refine ⟨by decide, by simp [routeStopsLookup, rtsC7, dictGet], ⟨stopB, by decide, by decide⟩⟩

/-- The station-preference narrowing of a singleton is the identity. -/
theorem stationNarrow_singleton (s : GTFSStop) : stationNarrow [s] = [s] := by
  unfold stationNarrow
  by_cases hf : s.location_type = 1 <;> simp [hf]

/-- C7 (amended): route-set narrowing runs after the station-preference
narrowing; whenever some candidate that survives the station-preference
narrowing is in the route's stop set, the resolver returns a stop id that
both matches the name and is served by the route. -/
theorem C7_route_narrowing_after_station_preference :
    ∀ (rts : List (String × List String)) (stops : List GTFSStop) (rid : String),
      rts ≠ [] →
      (∃ s ∈ stationNarrow stops, s.stop_id ∈ routeStopsLookup rts rid) →
      ∃ s ∈ stationNarrow stops,
        select_best_stop rts stops (some rid) true = some s.stop_id ∧
        s.stop_id ∈ routeStopsLookup rts rid := by
  intro rts stops rid hrts hex
  have h1 : rts.isEmpty = false := by
    cases rts with
    | nil => exact absurd rfl hrts
    | cons p l => rfl
  obtain ⟨s0, hs0, hs0id⟩ := hex
  have hids : (routeStopsLookup rts rid).isEmpty = false := by
    cases hle : routeStopsLookup rts rid with
    | nil => rw [hle] at hs0id; cases hs0id
    | cons a l => rfl
  cases stops with
  | nil => simp [stationNarrow] at hs0
  | cons a tl =>
    cases tl with
    | nil =>
      rw [stationNarrow_singleton] at hs0
      have hsa : s0 = a := by simpa using hs0
      subst hsa
      exact ⟨s0, by rw [stationNarrow_singleton]; exact List.mem_singleton.mpr rfl,
        rfl, hs0id⟩
    | cons b tl2 =>
      have hcont : (routeStopsLookup rts rid).contains s0.stop_id = true := by
        simpa using hs0id
      have hmemF : s0 ∈ (stationNarrow (a :: b :: tl2)).filter
          (fun s => (routeStopsLookup rts rid).contains s.stop_id) :=
        List.mem_filter.mpr ⟨hs0, hcont⟩
      cases hF : (stationNarrow (a :: b :: tl2)).filter
          (fun s => (routeStopsLookup rts rid).contains s.stop_id) with
      | nil => rw [hF] at hmemF; cases hmemF
      | cons m mtl =>
        rw [hF] at hmemF
        have hmF : m ∈ (stationNarrow (a :: b :: tl2)).filter
            (fun s => (routeStopsLookup rts rid).contains s.stop_id) := by
          rw [hF]; exact List.mem_cons_self _ _
        obtain ⟨hm1, hm2⟩ := List.mem_filter.mp hmF
        refine ⟨m, hm1, ?_, by simpa using hm2⟩
        simp only [select_best_stop, h1, hids, Bool.false_eq_true, if_false, if_true]
        rw [hF]

/-- Witness for the amended C7: with route `r` serving the station record
`A` as well, the resolver returns `A`, which is in the route's stop set. -/
theorem C7_route_narrowing_after_station_preference_witness :
    ∃ s ∈ stationNarrow stopsC7,
      select_best_stop rtsW7 stopsC7 (some "r") true = some s.stop_id ∧
      s.stop_id ∈ routeStopsLookup rtsW7 "r" :=
  C7_route_narrowing_after_station_preference rtsW7 stopsC7 "r" (by decide)
    ⟨stopA, by decide, by decide⟩

/-! ### C6: transit-delay filtering and alternatives -/

/-- Routes sorted by delay are a permutation of the input. -/
theorem mem_sort_routes_by_delay (a : Route) (l : List Route) :
    a ∈ sort_routes_by_delay l ↔ a ∈ l := by
  unfold sort_routes_by_delay
  exact (List.perm_insertionSort delayKeyLe l).mem_iff

/-- C6: delay filtering removes exactly the routes whose worst single-step
delay exceeds the threshold; for each route the alternates come from the
given candidate set, number at most 3, share no transit short name with
the delayed route, and each stays strictly below the threshold. -/
theorem C6_delay_filter_and_alternatives :
    ∀ (routes : List Route) (T : ℤ),
      filter_routes_by_delay_threshold routes T =
        (routes.filter (fun r => decide (get_route_max_delay r ≤ T)),
         routes.filter (fun r => decide (T < get_route_max_delay r))) ∧
      ∀ delayed ∈ (filter_routes_by_delay_threshold routes T).2,
        (find_alternative_transit_routes delayed routes T).length ≤ 3 ∧
        ∀ alt ∈ find_alternative_transit_routes delayed routes T,
          alt ∈ routes ∧
          (∀ n ∈ route_transit_names alt, n ∉ route_transit_names delayed) ∧
          get_route_max_delay alt < T := by
  intro routes T
  constructor
  · induction routes with
    | nil => rfl
    | cons r rs ih =>
      unfold filter_routes_by_delay_threshold
      rw [ih]
      by_cases hr : get_route_max_delay r > T
      · rw [if_pos hr]
        have h1 : decide (get_route_max_delay r ≤ T) = false := by
          simpa using not_le.mpr hr
        have h2 : decide (T < get_route_max_delay r) = true := by simpa using hr
        simp [List.filter_cons, h1, h2]
      · rw [if_neg hr]
        have h1 : decide (get_route_max_delay r ≤ T) = true := by
          simpa using not_lt.mp hr
        have h2 : decide (T < get_route_max_delay r) = false := by simpa using hr
        simp [List.filter_cons, h1, h2]
  · intro delayed _
    unfold find_alternative_transit_routes
    by_cases hg : get_route_max_delay delayed < T
    · rw [if_pos hg]
      exact ⟨by simp, by intro alt halt; cases halt⟩
    · rw [if_neg hg]
      refine ⟨List.length_take_le 3 _, ?_⟩
      intro alt halt
      have halt2 : alt ∈ sort_routes_by_delay (routes.filter (fun route =>
          decide (route.id ≠ delayed.id ∧
            (let names := route_transit_names route
             ¬names.isEmpty = true ∧ (∀ n ∈ names, n ∉ route_transit_names delayed) ∧
             get_route_max_delay route < T)))) := List.mem_of_mem_take halt
      rw [mem_sort_routes_by_delay] at halt2
      obtain ⟨hmem, hpred⟩ := List.mem_filter.mp halt2
      have hp := of_decide_eq_true hpred
      exact ⟨hmem, hp.2.2.1, hp.2.2.2⟩

/-- Witness for C6 on concrete routes: route `r1` (line 99, 15 min late)
is filtered at threshold 10 and `r2` (line 25, on time) qualifies as an
alternate with all claimed properties. -/
theorem C6_delay_filter_and_alternatives_witness :
    routeDelayed ∈ (filter_routes_by_delay_threshold [routeDelayed, routeOnTime] 10).2 ∧
    routeOnTime ∈ find_alternative_transit_routes routeDelayed [routeDelayed, routeOnTime] 10 ∧
    routeOnTime ∈ [routeDelayed, routeOnTime] ∧
    (∀ n ∈ route_transit_names routeOnTime, n ∉ route_transit_names routeDelayed) ∧
    get_route_max_delay routeOnTime < 10 := by
  have hmem : routeDelayed ∈ (filter_routes_by_delay_threshold [routeDelayed, routeOnTime] 10).2 := by
    decide
  have halt : routeOnTime ∈
      find_alternative_transit_routes routeDelayed [routeDelayed, routeOnTime] 10 := by
    decide
  have h := ((C6_delay_filter_and_alternatives [routeDelayed, routeOnTime] 10).2
    routeDelayed hmem).2 routeOnTime halt
  exact ⟨hmem, halt, h.1, h.2.1, h.2.2⟩

/-! ### C4: closure filtering -/

/-- A step all of whose probe points (start, end, midpoint) are farther
than the 50 m threshold from the closure's resolved location is not near
the closure. -/
theorem step_far_not_near (hav : Point → Point → ℚ) (s : RouteStep) (c : Closure)
    (h : ∀ p, extract_closure_location c = some p →
      50 < hav s.start_point p ∧ 50 < hav s.end_point p ∧ 50 < hav (stepMidpoint s) p) :
    step_passes_near_closure hav s c CLOSURE_PROXIMITY_THRESHOLD = false := by
  unfold step_passes_near_closure
  split
  · rfl
  · next p hp =>
    obtain ⟨h1, h2, h3⟩ := h p hp
    have n1 : ¬(hav s.start_point p < CLOSURE_PROXIMITY_THRESHOLD) := by
      unfold CLOSURE_PROXIMITY_THRESHOLD
      exact not_lt.mpr (le_of_lt h1)
    have n2 : ¬(hav s.end_point p < CLOSURE_PROXIMITY_THRESHOLD) := by
      unfold CLOSURE_PROXIMITY_THRESHOLD
      exact not_lt.mpr (le_of_lt h2)
    have n3 : ¬(hav (stepMidpoint s) p < CLOSURE_PROXIMITY_THRESHOLD) := by
      unfold CLOSURE_PROXIMITY_THRESHOLD
      exact not_lt.mpr (le_of_lt h3)
    simp [n1, n2, n3]

/-- A route all of whose steps stay far from every closure collects no
closures, whatever the severity filter. -/
theorem routeClosuresAcc_far (hav : Point → Point → ℚ) (route : Route)
    (severity_filter : Option String) :
    ∀ (closures : List Closure),
      (∀ c ∈ closures, ∀ p, extract_closure_location c = some p →
        ∀ s ∈ route.steps,
          50 < hav s.start_point p ∧ 50 < hav s.end_point p ∧ 50 < hav (stepMidpoint s) p) →
      routeClosuresAcc hav route severity_filter closures = [] := by
  intro closures
  induction closures with
  | nil => intro _; rfl
  | cons c rest ih =>
    intro h
    have hrest := fun c' hc' => h c' (List.mem_cons_of_mem _ hc')
    have hany : route.steps.any
        (fun s => step_passes_near_closure hav s c CLOSURE_PROXIMITY_THRESHOLD) = false := by
      rw [List.any_eq_false]
      intro s hs
      rw [step_far_not_near hav s c
        (fun p hp => h c (List.mem_cons_self _ _) p hp s hs)]
      simp
    unfold routeClosuresAcc
    split
    · exact ih hrest
    · rw [hany]
      simp only [Bool.false_eq_true, if_false]
      exact ih hrest

/-- A route that collects no closures lands in the valid part of the
filter, for every occurrence in the input list. -/
theorem filterClosuresGo_mem_valid (hav : Point → Point → ℚ) (all : List Closure)
    (sf : Option String) (x : Route)
    (hx : (route_passes_through_closures hav x all sf).1 = false) :
    ∀ (l : List Route), x ∈ l → x ∈ (filterClosuresGo hav all sf l).1 := by
  intro l
  induction l with
  | nil => intro hmem; cases hmem
  | cons r rest ih =>
    intro hmem
    unfold filterClosuresGo
    rcases List.mem_cons.mp hmem with rfl | hmem'
    · rw [if_neg (by rw [hx]; simp)]
      exact List.mem_cons_self _ _
    · by_cases hr : (route_passes_through_closures hav r all sf).1 = true
      · rw [if_pos hr]
        exact ih hmem'
      · rw [if_neg hr]
        exact List.mem_cons_of_mem _ (ih hmem')

/-- A route that collects no closures never lands in the filtered part. -/
theorem filterClosuresGo_not_mem_filtered (hav : Point → Point → ℚ) (all : List Closure)
    (sf : Option String) (x : Route)
    (hx : (route_passes_through_closures hav x all sf).1 = false) :
    ∀ (l : List Route), x ∉ (filterClosuresGo hav all sf l).2.1 := by
  intro l
  induction l with
  | nil => intro hmem; cases hmem
  | cons r rest ih =>
    unfold filterClosuresGo
    by_cases hr : (route_passes_through_closures hav r all sf).1 = true
    · rw [if_pos hr]
      intro hmem
      rcases List.mem_cons.mp hmem with rfl | hmem'
      · rw [hx] at hr; cases hr
      · exact ih hmem'
    · rw [if_neg hr]
      exact ih

/-- C4: a route every one of whose steps keeps its start, end and midpoint
more than 50 m from every closure's resolved location is never filtered by
closure filtering, for every closure/construction list, every severity mix
and either value of `filter_major_only`. -/
theorem C4_far_route_never_filtered :
    ∀ (hav : Point → Point → ℚ) (routes : List Route)
      (closures construction : List Closure) (filter_major_only : Bool) (route : Route),
      route ∈ routes →
      (∀ c ∈ closures ++ construction, ∀ p, extract_closure_location c = some p →
        ∀ s ∈ route.steps,
          50 < hav s.start_point p ∧ 50 < hav s.end_point p ∧ 50 < hav (stepMidpoint s) p) →
      route ∈ (filter_routes_with_closures hav routes closures construction
        filter_major_only).1 ∧
      route ∉ (filter_routes_with_closures hav routes closures construction
        filter_major_only).2.1 := by
  intro hav routes closures construction fmo route hmem hfar
  have hpass : (route_passes_through_closures hav route (closures ++ construction)
      (if fmo then some "major" else none)).1 = false := by
    unfold route_passes_through_closures
    rw [routeClosuresAcc_far hav route _ _ hfar]
    rfl
  unfold filter_routes_with_closures
  exact ⟨filterClosuresGo_mem_valid hav _ _ route hpass routes hmem,
    filterClosuresGo_not_mem_filtered hav _ _ route hpass routes⟩

/-- Witness for C4: a single-step route 100 m (by the witness metric) from
a major closure survives `filter_major_only = true` filtering. -/
theorem C4_far_route_never_filtered_witness :
    routeW4 ∈ (filter_routes_with_closures havW4 [routeW4] [closureW4] [] true).1 ∧
    routeW4 ∉ (filter_routes_with_closures havW4 [routeW4] [closureW4] [] true).2.1 := by
  apply C4_far_route_never_filtered havW4 [routeW4] [closureW4] [] true routeW4
    (List.mem_singleton.mpr rfl)
  intro c hc p hp s _
  have hc' : c = closureW4 := by simpa using hc
  subst hc'
  have hploc : p = (⟨1, 1⟩ : Point) := by
    have hx : extract_closure_location closureW4 = some ⟨1, 1⟩ := rfl
    rw [hx] at hp
    exact ((Option.some.injEq _ _).mp hp).symm
  subst hploc
  refine ⟨?_, ?_, ?_⟩ <;> · show (50 : ℚ) < 100; norm_num

/-! ### C2: the A* heuristic -/

/-- The haversine distance of a point to itself is zero. -/
theorem haversineReal_self (p : Point) : haversineReal p p = 0 := by
  unfold haversineReal
  simp [sub_self, Real.sin_zero, Real.sqrt_zero, Real.arcsin_zero]

/-- Haversine distance from (0°, 0°) to (90°, 0°): a quarter great circle. -/
theorem haversineReal_equator_pole :
    haversineReal (⟨0, 0⟩ : Point) (⟨90, 0⟩ : Point) = 2 * (Real.pi / 4) * 6371000 := by
  have h0 : radiansR (0 : ℚ) = 0 := by
    unfold radiansR
    push_cast
    ring
  have h90 : radiansR (90 : ℚ) = Real.pi / 2 := by
    unfold radiansR
    push_cast
    ring
  unfold haversineReal
  rw [h0, h90]
  dsimp only
  have e1 : (Real.pi / 2 - 0) / 2 = Real.pi / 4 := by ring
  have e2 : ((0 : ℝ) - 0) / 2 = 0 := by ring
  rw [e1, e2, Real.sin_zero, Real.cos_zero, Real.cos_pi_div_two]
  have e3 : Real.sin (Real.pi / 4) ^ 2 + 1 * 0 * 0 ^ 2 = Real.sin (Real.pi / 4) ^ 2 := by
    ring
  rw [e3]
  have hnn : 0 ≤ Real.sin (Real.pi / 4) := by
    apply Real.sin_nonneg_of_nonneg_of_le_pi
    · positivity
    · nlinarith [Real.pi_pos]
  rw [Real.sqrt_sq hnn]
  rw [Real.arcsin_sin (by nlinarith [Real.pi_pos]) (by nlinarith [Real.pi_pos])]

/-- The heuristic on the counterexample graph is the pole distance over the
walking speed. -/
theorem euclideanHeuristic_nodesC2 : euclideanHeuristic nodesC2 "s" "t" =
    haversineReal nodeS.point nodeT.point /
      ((MODE_SPEEDS .walking * 1000 / 3600 : ℚ) : ℝ) := by
  have hs : nodeLookup nodesC2 "s" = some nodeS := rfl
  have ht : nodeLookup nodesC2 "t" = some nodeT := rfl
  unfold euclideanHeuristic
  rw [hs, ht]

/-- Fastest-preference cost of driving the counterexample edge. -/
theorem pathCost_edgeCar : pathCostQ fastest_cost_function [(edgeCar, Mode.car)] = 72 := by
  norm_num [pathCostQ, pathCostFrom, fastest_cost_function, switchTerm, MODE_SPEEDS, edgeCar]

/-- C2 counterexample: on the single car-only edge from (0°, 0°) to
(90°, 0°) the valid remaining path costs 72 s under the fastest
preference, while the heuristic — great-circle distance divided by the
slow walking speed — evaluates to 2293560 π s.  The heuristic exceeds the
true remaining cost, so it is not admissible for every preference cost
function. -/
theorem C2_heuristic_overestimates_counterexample :
    chainOk [edgeCar] [Mode.car] "s" [(edgeCar, Mode.car)] "t" = true ∧
    ((pathCostQ fastest_cost_function [(edgeCar, Mode.car)] : ℚ) : ℝ) <
      euclideanHeuristic nodesC2 "s" "t" := by
  constructor
  · decide
  · rw [euclideanHeuristic_nodesC2, pathCost_edgeCar]
    have hp : nodeS.point = (⟨0, 0⟩ : Point) := rfl
    have hq : nodeT.point = (⟨90, 0⟩ : Point) := rfl
    rw [hp, hq, haversineReal_equator_pole]
    have hc : ((MODE_SPEEDS Mode.walking * 1000 / 3600 : ℚ) : ℝ) = 25 / 18 := by
      norm_num [ MODE_SPEEDS]
    rw [hc]
    have h72 : (((72 : ℚ) : ℝ)) = 72 := by norm_num
    rw [h72]
    rw [lt_div_iff₀ (by norm_num : (0:ℝ) < 25 / 18)]
    nlinarith [Real.pi_gt_three]

/-- C2 (amended): the heuristic equals the great-circle distance to the
goal divided by the walking speed (5 km/h), and it never exceeds the
fastest-preference walking cost of an edge whose stored distance is at
least that great-circle distance (with penalties ≥ 1); it is not
admissible for every preference cost function (see the counterexample). -/
theorem C2_heuristic_walking_bound :
    ∀ (nodes : List (String × Node)) (n1 n2 : String) (a b : Node) (e : Edge),
      nodeLookup nodes n1 = some a → nodeLookup nodes n2 = some b →
      haversineReal a.point b.point ≤ (e.distance : ℝ) →
      1 ≤ e.weather_penalty → 1 ≤ e.event_penalty → 0 ≤ e.distance →
      euclideanHeuristic nodes n1 n2 =
        haversineReal a.point b.point / ((MODE_SPEEDS .walking * 1000 / 3600 : ℚ) : ℝ) ∧
      euclideanHeuristic nodes n1 n2 ≤ ((fastest_cost_function e .walking none : ℚ) : ℝ) := by
  intro nodes n1 n2 a b e h1 h2 hle hw hev hd
  have heq : euclideanHeuristic nodes n1 n2 =
      haversineReal a.point b.point / ((MODE_SPEEDS .walking * 1000 / 3600 : ℚ) : ℝ) := by
    unfold euclideanHeuristic
    rw [h1, h2]
  refine ⟨heq, ?_⟩
  rw [heq]
  have hc : ((MODE_SPEEDS Mode.walking * 1000 / 3600 : ℚ) : ℝ) = 25 / 18 := by
    norm_num [ MODE_SPEEDS]
  have hcost : ((fastest_cost_function e .walking none : ℚ) : ℝ) =
      (e.distance : ℝ) / (25 / 18) * (e.weather_penalty : ℝ) * (e.event_penalty : ℝ) := by
    unfold fastest_cost_function switchTerm
    push_cast
    norm_num [ MODE_SPEEDS]
  rw [hc, hcost]
  have hd' : (0 : ℝ) ≤ (e.distance : ℝ) / (25 / 18) := by
    apply div_nonneg _ (by norm_num)
    exact_mod_cast hd
  have hw' : (1 : ℝ) ≤ (e.weather_penalty : ℝ) := by exact_mod_cast hw
  have hev' : (1 : ℝ) ≤ (e.event_penalty : ℝ) := by exact_mod_cast hev
  have hstep1 : haversineReal a.point b.point / (25 / 18) ≤ (e.distance : ℝ) / (25 / 18) :=
    (div_le_div_iff_of_pos_right (by norm_num : (0:ℝ) < 25 / 18)).mpr hle
  have hwe : (1 : ℝ) ≤ (e.weather_penalty : ℝ) * (e.event_penalty : ℝ) := by nlinarith
  calc haversineReal a.point b.point / (25 / 18)
      ≤ (e.distance : ℝ) / (25 / 18) := hstep1
    _ ≤ (e.distance : ℝ) / (25 / 18) *
        ((e.weather_penalty : ℝ) * (e.event_penalty : ℝ)) := le_mul_of_one_le_right hd' hwe
    _ = (e.distance : ℝ) / (25 / 18) * (e.weather_penalty : ℝ) * (e.event_penalty : ℝ) := by
        ring

/-- Witness for the amended C2: two nodes at the same point (great-circle
distance 0) and a 100 m walking edge with neutral penalties. -/
theorem C2_heuristic_walking_bound_witness :
    euclideanHeuristic nodesW2 "a" "b" =
      haversineReal nW2a.point nW2b.point / ((MODE_SPEEDS .walking * 1000 / 3600 : ℚ) : ℝ) ∧
    euclideanHeuristic nodesW2 "a" "b" ≤
      ((fastest_cost_function edgeW2 .walking none : ℚ) : ℝ) :=
  C2_heuristic_walking_bound nodesW2 "a" "b" nW2a nW2b edgeW2 rfl rfl
    (by rw [show nW2a.point = pW2 from rfl, show nW2b.point = pW2 from rfl, haversineReal_self]
        norm_num [show edgeW2.distance = 100 from rfl])
    (by show (1:ℚ) ≤ 1; norm_num) (by show (1:ℚ) ≤ 1; norm_num)
    (by show (0:ℚ) ≤ 100; norm_num)

end Dest
